import Mathlib

/-!
Verification of the Anvaya dense linear-algebra core
(`src/anvaya/linear_algebra.py`, `src/anvaya/core/exceptions.py`,
`src/anvaya/core/types.py`).

Embedding conventions:
* double-precision scalars are embedded as exact rationals `ℚ`;
* a dense 2-D array is a `List (List ℚ)`;
* Python exceptions become an inductive `PyError`, and a fallible call
  returns `Except PyError α`;
* the NumPy backend primitives (`np.linalg.det`, `inv`, `solve`,
  `cholesky`, `norm`, the dtype-converting `np.array`) are modelled from
  their documented semantics in exact arithmetic;
* `np.linalg.cond` (the 2-norm condition number, irrational in general)
  is modelled as an oracle parameter `condFn` threaded through the
  operations that consult it;
* `np.linalg.eig` (iterative, irrational in general) is modelled as an
  oracle parameter `eigPrim`;
* a `warnings.warn` advisory is modelled as a `Bool` flag returned next
  to the primary result.
-/

set_option allowUnsafeReducibility true
attribute [semireducible] Rat.add Rat.mul Rat.inv Rat.sub

instance {ε α : Type} [DecidableEq ε] [DecidableEq α] : DecidableEq (Except ε α) :=
  fun a b =>
    match a, b with
    | .ok x, .ok y =>
        if h : x = y then isTrue (by rw [h]) else isFalse (fun c => h (by injection c))
    | .ok _, .error _ => isFalse (fun c => by injection c)
    | .error _, .ok _ => isFalse (fun c => by injection c)
    | .error e, .error f =>
        if h : e = f then isTrue (by rw [h]) else isFalse (fun c => h (by injection c))

namespace Anvaya

/-- Entry `A[i][j]` of a list-of-lists array, defaulting to `0` out of range. -/
def entry (A : List (List ℚ)) (i j : ℕ) : ℚ := (A.getD i []).getD j 0

/-- Number of columns of a 2-D array: the length of its first row
(`A.shape[1]`, or `A.shape[-1]` for the 2-D arrays the module handles). -/
def colsL (A : List (List ℚ)) : ℕ := (A.headD []).length

/-- Rendering of `A.shape` for a 2-D array, as NumPy prints it: `(rows, cols)`. -/
def shapeStr (A : List (List ℚ)) : String :=
  "(" ++ toString A.length ++ ", " ++ toString (colsL A) ++ ")"

/-- The check `A.ndim == 2 and A.shape[0] == A.shape[1]` for data built from a nested
list: the list is nonempty (an empty list is a 1-D array of shape `(0,)`)
and every row has length equal to the number of rows. -/
def isSquareArr (A : List (List ℚ)) : Bool :=
  !A.isEmpty && A.all (fun r => r.length == A.length)

/-- The value `np.finfo(np.float64).eps`: the unit round-off of double precision. -/
def eps64 : ℚ := 1 / 2 ^ 52

/-- The exceptions that can cross the module boundary: the two library
exception classes used by `linear_algebra.py` (`core/exceptions.py`),
the NumPy exceptions `numpy.linalg.LinAlgError` and `ValueError`, and the
`InvalidShapeError` named by the specification (no such class exists in
`core/exceptions.py`; the constructor is needed to state that fact). -/
inductive PyError where
  | valueError (msg : String)
  | linAlgError (msg : String)
  | dimensionMismatch (msg : String) (expected got : Option ℕ)
  | singularMatrix (msg : String) (condition_number : Option ℚ)
  | invalidShape (msg : String)
  deriving DecidableEq, Repr

/-- The `expected`/`got` diagnostic payload of a `DimensionMismatchError`
result, or `none` when the result is not that error. -/
def dimFields {α : Type} : Except PyError α → Option (Option ℕ × Option ℕ)
  | .error (.dimensionMismatch _ e g) => some (e, g)
  | _ => none

/-- Whether a result is a raised `DimensionMismatchError`. -/
def isDimErr {α : Type} : Except PyError α → Bool
  | .error (.dimensionMismatch _ _ _) => true
  | _ => false

/-- Whether a result is a raised `SingularMatrixError`. -/
def isSingErr {α : Type} : Except PyError α → Bool
  | .error (.singularMatrix _ _) => true
  | _ => false

/-- Whether a result is a raised `InvalidShapeError`. -/
def isInvalidShapeErr {α : Type} : Except PyError α → Bool
  | .error (.invalidShape _) => true
  | _ => false

/-- Whether a result is a normal return. -/
def isOkRes {α : Type} : Except PyError α → Bool
  | .ok _ => true
  | .error _ => false

/-- A cell of the heterogeneous input accepted by `matrix`: a Python `int`,
a Python `float`, or a non-numeric element (modelled as a string NumPy
cannot convert to `float64`). -/
inductive Cell where
  | int (z : ℤ)
  | float (q : ℚ)
  | nonNumeric (s : String)
  deriving DecidableEq, Repr

/-- Conversion of one cell to `float64`, when possible. -/
def Cell.toFloat? : Cell → Option ℚ
  | .int z => some (z : ℚ)
  | .float q => some q
  | .nonNumeric _ => none

/-- All rows have the length of the first row. -/
def isRectangular (data : List (List Cell)) : Bool :=
  data.all (fun r => r.length == (data.headD []).length)

/-- Every cell converts to `float64`. -/
def allNumeric (data : List (List Cell)) : Bool :=
  data.all (fun r => r.all (fun c => c.toFloat?.isSome))

/-- Behaviour of `np.array(data, dtype=np.float64)` on a nested list: raises `ValueError`
on ragged rows (inhomogeneous shape) or on an element that cannot be
converted, and otherwise yields double-precision storage, promoting every
integer cell. -/
def npArrayFloat64 (data : List (List Cell)) : Except PyError (List (List ℚ)) :=
  if !isRectangular data then
    .error (.valueError "setting an array element with a sequence: inhomogeneous shape")
  else if !allNumeric data then
    .error (.valueError "could not convert element to float64")
  else
    .ok (data.map (fun r => r.map (fun c => c.toFloat?.getD 0)))

/-- Embedding of `matrix(data)` (`linear_algebra.py:28`): `np.array(data, dtype=np.float64)`. -/
def matrix (data : List (List Cell)) : Except PyError (List (List ℚ)) :=
  npArrayFloat64 data

/-- Dot product of a row with a column of `B`. -/
def rowDotCol (row : List ℚ) (B : List (List ℚ)) (j : ℕ) : ℚ :=
  ((List.range B.length).map (fun k => row.getD k 0 * entry B k j)).sum

/-- The product `np.dot(A, B)` for 2-D operands with `A.shape[-1] = B.shape[0]`. -/
def matMulL (A B : List (List ℚ)) : List (List ℚ) :=
  A.map (fun row => (List.range (colsL B)).map (fun j => rowDotCol row B j))

/-- Embedding of `multiply(A, B)` (`linear_algebra.py:51`): raises `DimensionMismatchError`
with a message only (no `expected`/`got` payload is passed) when
`A.shape[-1] != B.shape[0]`, else returns `np.dot(A, B)`. -/
def multiply (A B : List (List ℚ)) : Except PyError (List (List ℚ)) :=
  if colsL A ≠ B.length then
    .error (.dimensionMismatch
      ("Cannot multiply matrices with shapes " ++ shapeStr A ++ " and " ++ shapeStr B)
      none none)
  else
    .ok (matMulL A B)

/-- The square matrix over `Fin n` read off a list-of-lists array. -/
def toMatN (n : ℕ) (A : List (List ℚ)) : Matrix (Fin n) (Fin n) ℚ :=
  Matrix.of fun i j => entry A i j

/-- Executable determinant by cofactor expansion along the first row. -/
def detExpand : (n : ℕ) → Matrix (Fin n) (Fin n) ℚ → ℚ
  | 0, _ => 1
  | n + 1, M =>
      Finset.univ.sum fun j : Fin (n + 1) =>
        (-1) ^ (j : ℕ) * M 0 j * detExpand n (M.submatrix Fin.succ j.succAbove)

/-- Semantics of `np.linalg.det(A)` for a square `A`, in exact arithmetic: the
determinant of the matrix `A` represents. -/
def npDet (A : List (List ℚ)) : ℚ :=
  detExpand A.length (toMatN A.length A)

/-- Embedding of `determinant(A, check_numerical)` (`linear_algebra.py:78`): raises
`DimensionMismatchError` (message only) unless `A` is 2-D square, then
returns `float(np.linalg.det(A))` together with the advisory flag of the
`warnings.warn` side channel: the flag is set when `check_numerical` holds,
`A.shape[0] > 10`, and `np.linalg.cond(A) > 1e10`.  `condFn` is the oracle
for `np.linalg.cond`. -/
def determinant (condFn : List (List ℚ) → ℚ) (A : List (List ℚ))
    (check_numerical : Bool) : Except PyError (ℚ × Bool) :=
  if !isSquareArr A then
    .error (.dimensionMismatch
      ("Determinant requires square matrix, got shape " ++ shapeStr A) none none)
  else
    .ok (npDet A,
      check_numerical && decide (10 < A.length) && decide ((10 : ℚ) ^ 10 < condFn A))

/-- The scalar a `determinant` call returned, when it did not raise. -/
def detValue : Except PyError (ℚ × Bool) → Option ℚ
  | .ok p => some p.1
  | .error _ => none

/-- The advisory flag a `determinant` call emitted, when it did not raise. -/
def detAdvisory : Except PyError (ℚ × Bool) → Option Bool
  | .ok p => some p.2
  | .error _ => none

/-- Executable inverse of a square matrix via the adjugate formula
(entry `(i, j)` is the `(j, i)` cofactor divided by the determinant). -/
def invMat : (n : ℕ) → Matrix (Fin n) (Fin n) ℚ → Matrix (Fin n) (Fin n) ℚ
  | 0, _ => Matrix.of fun _ _ => 0
  | n + 1, M => Matrix.of fun i j =>
      (detExpand (n + 1) M)⁻¹ *
        ((-1) ^ ((i : ℕ) + (j : ℕ)) * detExpand n (M.submatrix j.succAbove i.succAbove))

/-- Read a `Fin n`-indexed matrix back into a list-of-lists array. -/
def fromMatN (n : ℕ) (M : Matrix (Fin n) (Fin n) ℚ) : List (List ℚ) :=
  List.ofFn fun i : Fin n => List.ofFn fun j : Fin n => M i j

/-- Semantics of `np.linalg.inv(A)`, in exact arithmetic: `LinAlgError` on a non-square
input or on a zero pivot (an exactly singular matrix), else the inverse. -/
def npInv (A : List (List ℚ)) : Except PyError (List (List ℚ)) :=
  if !isSquareArr A then
    .error (.linAlgError "Last 2 dimensions of the array must be square")
  else if npDet A = 0 then
    .error (.linAlgError "Singular matrix")
  else
    .ok (fromMatN A.length (invMat A.length (toMatN A.length A)))

/-- Embedding of `inverse(A, check_singular)` (`linear_algebra.py:124`): raises
`DimensionMismatchError` unless square; if `check_singular` and
`np.linalg.cond(A) > 1 / np.finfo(A.dtype).eps`, raises
`SingularMatrixError` carrying the condition number, without consulting
the inversion primitive; otherwise delegates to `np.linalg.inv`, re-raising
a backend `LinAlgError` as `SingularMatrixError` (no condition number). -/
def inverse (condFn : List (List ℚ) → ℚ) (A : List (List ℚ))
    (check_singular : Bool) : Except PyError (List (List ℚ)) :=
  if !isSquareArr A then
    .error (.dimensionMismatch
      ("Inverse requires square matrix, got shape " ++ shapeStr A) none none)
  else if check_singular && decide (1 / eps64 < condFn A) then
    .error (.singularMatrix "Matrix is singular or nearly singular" (some (condFn A)))
  else
    match npInv A with
    | .ok M => .ok M
    | .error (.linAlgError m) => .error (.singularMatrix m none)
    | .error e => .error e

/-- Multiply a list-of-lists matrix with a vector of length `b.length`. -/
def matVecL (M : List (List ℚ)) (b : List ℚ) : List ℚ :=
  M.map fun row => ((List.range b.length).map fun k => row.getD k 0 * b.getD k 0).sum

/-- Semantics of `np.linalg.solve(A, b)` for a 2-D `A` and 1-D `b`, in exact arithmetic:
`LinAlgError` when `A` is not square; a `ValueError` from the underlying
gufunc when `b`'s core dimension does not match (this one is not a
`LinAlgError`); `LinAlgError` on a zero pivot; else the unique solution. -/
def npSolve (A : List (List ℚ)) (b : List ℚ) : Except PyError (List ℚ) :=
  if !isSquareArr A then
    .error (.linAlgError "Last 2 dimensions of the array must be square")
  else if b.length ≠ A.length then
    .error (.valueError "solve1: Operand 1 has a mismatch in its core dimension 0")
  else if npDet A = 0 then
    .error (.linAlgError "Singular matrix")
  else
    .ok (matVecL (fromMatN A.length (invMat A.length (toMatN A.length A))) b)

/-- Embedding of `solve_linear_system(A, b)` (`linear_algebra.py:271`): calls
`np.linalg.solve` inside `try`, catching only `LinAlgError` and re-raising
it as `SingularMatrixError`; any other exception propagates unchanged.
There is no dimension validation of its own. -/
def solve_linear_system (A : List (List ℚ)) (b : List ℚ) : Except PyError (List ℚ) :=
  match npSolve A b with
  | .error (.linAlgError m) => .error (.singularMatrix ("Cannot solve system: " ++ m) none)
  | r => r

/-- Whether a result is a raised `ValueError`. -/
def isValueErr {α : Type} : Except PyError α → Bool
  | .error (.valueError _) => true
  | _ => false

/-- Embedding of `transpose(A)` (`linear_algebra.py:342`): `np.transpose(A)` on a
rectangular 2-D input. -/
def transposeL (A : List (List ℚ)) : List (List ℚ) :=
  (List.range (colsL A)).map fun j => A.map fun r => r.getD j 0

/-- The symmetric matrix LAPACK `dpotrf` actually factors: only the lower
triangle of the input is referenced. -/
def symLower (A : List (List ℚ)) : List (List ℚ) :=
  List.ofFn fun i : Fin A.length => List.ofFn fun j : Fin A.length =>
    if (j : ℕ) ≤ (i : ℕ) then entry A i j else entry A j i

/-- One step of pivoting: the Schur complement of the `(0,0)` entry. -/
def schurL (A : List (List ℚ)) : List (List ℚ) :=
  List.ofFn fun i : Fin (A.length - 1) => List.ofFn fun j : Fin (A.length - 1) =>
    entry A (i + 1) (j + 1) - entry A (i + 1) 0 * entry A 0 (j + 1) / entry A 0 0

/-- Running `n` steps of the Cholesky pivot recursion: every pivot must be positive. -/
def choleskyGo : ℕ → List (List ℚ) → Bool
  | 0, _ => true
  | n + 1, A => decide (0 < entry A 0 0) && choleskyGo n (schurL A)

/-- Whether a Cholesky-style decomposition runs to completion without a
non-positive pivot, in exact arithmetic. -/
def choleskyPivotsOk (A : List (List ℚ)) : Bool :=
  choleskyGo A.length A

/-- Semantics of `np.linalg.cholesky(A)`: `LinAlgError` when the input is not 2-D square
(raised by the shape assertions) and `LinAlgError` when `dpotrf` meets a
non-positive pivot; success otherwise.  Only the lower triangle is read. -/
def npCholesky (A : List (List ℚ)) : Except PyError Unit :=
  if !isSquareArr A then
    .error (.linAlgError "Last 2 dimensions of the array must be square")
  else if choleskyPivotsOk (symLower A) then
    .ok ()
  else
    .error (.linAlgError "Matrix is not positive definite")

/-- Embedding of `is_positive_definite(A)` (`linear_algebra.py:379`): runs
`np.linalg.cholesky(A)` in a `try`, returning `True` on success and `False`
on any caught `LinAlgError`; an exception of another class would propagate. -/
def is_positive_definite (A : List (List ℚ)) : Except PyError Bool :=
  match npCholesky A with
  | .ok _ => .ok true
  | .error (.linAlgError _) => .ok false
  | .error e => .error e

/-- A complex scalar with exact rational parts, for eigendecomposition
results (`np.linalg.eig` returns complex arrays). -/
structure CQ where
  re : ℚ
  im : ℚ
  deriving DecidableEq, Repr

/-- Complex addition. -/
def CQ.addC (x y : CQ) : CQ := ⟨x.re + y.re, x.im + y.im⟩

/-- Complex multiplication. -/
def CQ.mulC (x y : CQ) : CQ := ⟨x.re * y.re - x.im * y.im, x.re * y.im + x.im * y.re⟩

/-- The complex zero. -/
def CQ.zeroC : CQ := ⟨0, 0⟩

/-- Sum of a list of complex scalars. -/
def sumC (l : List CQ) : CQ := l.foldr CQ.addC CQ.zeroC

/-- Scaling of a complex scalar by a rational. -/
def smulQC (a : ℚ) (x : CQ) : CQ := ⟨a * x.re, a * x.im⟩

/-- Column `i` of a complex list-of-lists matrix. -/
def colC (V : List (List CQ)) (i : ℕ) : List CQ := V.map fun r => r.getD i CQ.zeroC

/-- Product of a real matrix with a complex vector. -/
def matVecC (A : List (List ℚ)) (v : List CQ) : List CQ :=
  A.map fun row =>
    sumC ((List.range row.length).map fun k => smulQC (row.getD k 0) (v.getD k CQ.zeroC))

/-- Scaling of a complex vector by a complex scalar. -/
def smulC (lam : CQ) (v : List CQ) : List CQ := v.map fun x => CQ.mulC lam x

/-- Componentwise closeness of two complex scalars within tolerance `tol`. -/
def approxCQ (tol : ℚ) (x y : CQ) : Bool :=
  decide (|x.re - y.re| ≤ tol) && decide (|x.im - y.im| ≤ tol)

/-- Closeness of two complex vectors: equal length and componentwise
within tolerance. -/
def approxVecC (tol : ℚ) (u v : List CQ) : Bool :=
  u.length == v.length &&
    (List.range u.length).all fun k => approxCQ tol (u.getD k CQ.zeroC) (v.getD k CQ.zeroC)

/-- The record `EigenResult` (`core/types.py:43`): named tuple of eigenvalues and the
matrix whose `i`-th column is the eigenvector for `values[i]`. -/
structure EigenResultL where
  values : List CQ
  vectors : List (List CQ)
  deriving DecidableEq, Repr

/-- Embedding of `eigenvalues(A)` (`linear_algebra.py:200`): calls `np.linalg.eig` and
packages its two outputs, unmodified and in order, into `EigenResult`.
`eigPrim` is the oracle for `np.linalg.eig` (an iterative primitive whose
outputs are irrational in general). -/
def eigenvalues
    (eigPrim : List (List ℚ) → Except PyError (List CQ × List (List CQ)))
    (A : List (List ℚ)) : Except PyError EigenResultL :=
  (eigPrim A).map fun p => ⟨p.1, p.2⟩

/-- The eigenpair invariant at index `i` for a raw primitive output:
`A · vecs[:,i] ≈ vals[i] · vecs[:,i]` within `tol`. -/
def eigPairOk (tol : ℚ) (A : List (List ℚ)) (vals : List CQ)
    (vecs : List (List CQ)) (i : ℕ) : Bool :=
  approxVecC tol (matVecC A (colC vecs i)) (smulC (vals.getD i CQ.zeroC) (colC vecs i))

/-- The eigenpair invariant at index `i` for a returned `EigenResult`. -/
def resultPairOk (tol : ℚ) (A : List (List ℚ)) (r : EigenResultL) (i : ℕ) : Bool :=
  approxVecC tol (matVecC A (colC r.vectors i))
    (smulC (r.values.getD i CQ.zeroC) (colC r.vectors i))

/-- The argument of `norm`: NumPy dispatches on whether it is 1-D or 2-D. -/
inductive NormInput where
  | vec (v : List ℚ)
  | mat (A : List (List ℚ))
  deriving DecidableEq, Repr

/-- The `ord` argument of `np.linalg.norm`. -/
inductive NOrder where
  | int (z : ℤ)
  | inf
  | ninf
  | fro
  | nuc
  deriving DecidableEq, Repr

/-- Sum of squares of a vector. -/
def vecSumSq (v : List ℚ) : ℚ := (v.map fun x => x * x).sum

/-- Sum of squares of all entries (the square of the Frobenius norm). -/
def frobSq (A : List (List ℚ)) : ℚ := (A.map vecSumSq).sum

/-- Whether a square array is diagonal. -/
def isDiagonalL (A : List (List ℚ)) : Bool :=
  isSquareArr A &&
    (List.range A.length).all fun i =>
      (List.range A.length).all fun j => i == j || decide (entry A i j = 0)

/-- Largest squared diagonal entry: for a diagonal matrix this is the square
of the largest singular value (the spectral norm). -/
def maxDiagSq (A : List (List ℚ)) : ℚ :=
  ((List.range A.length).map fun i => entry A i i * entry A i i).foldr max 0

/-- Semantics of `np.linalg.norm(x, ord)`, modelled by the square of its value where that
is exactly representable, from NumPy's documented dispatch: `ord=2` on a
1-D input is the Euclidean 2-norm; `ord='fro'` on a 2-D input is the
Frobenius norm; `ord=2` on a 2-D input is the spectral norm (largest
singular value), given here for diagonal matrices, whose singular values
are the absolute diagonal entries; other cases are irrational in general
and left unevaluated. -/
def npNormSq (x : NormInput) (o : NOrder) : Option ℚ :=
  match x, o with
  | .vec v, .int 2 => some (vecSumSq v)
  | .mat A, .fro => some (frobSq A)
  | .mat A, .int 2 => if isDiagonalL A then some (maxDiagSq A) else none
  | _, _ => none

/-- The default of the `ord` parameter of `norm` (`linear_algebra.py:306`):
the integer `2`. -/
def normOrderDefault : NOrder := .int 2

/-- Embedding of `norm(v, ord)` (`linear_algebra.py:306`): a direct pass-through to
`np.linalg.norm(v, ord=ord)` (represented by its squared value). -/
def norm (x : NormInput) (o : NOrder) : Option ℚ := npNormSq x o

/-- Embedding of `norm(v)` with the `ord` argument left at its default. -/
def normDefault (x : NormInput) : Option ℚ := norm x normOrderDefault

/-- A concrete stand-in for the `np.linalg.eig` oracle, returning the exact
eigendecomposition of the rotation matrix `[[0,-1],[1,0]]` (eigenvalues
`i` and `-i`, eigenvector columns `(1, -i)` and `(1, i)`). -/
def eigOracle0 : List (List ℚ) → Except PyError (List CQ × List (List CQ)) :=
  fun _ => .ok ([⟨0, 1⟩, ⟨0, -1⟩], [[⟨1, 0⟩, ⟨1, 0⟩], [⟨0, -1⟩, ⟨0, 1⟩]])

/-! ## Supporting lemmas -/

/-- The executable cofactor expansion agrees with the abstract determinant. -/
theorem detExpand_eq_det : ∀ (n : ℕ) (M : Matrix (Fin n) (Fin n) ℚ),
    detExpand n M = M.det
  | 0, M => by simp [detExpand, Matrix.det_fin_zero]
  | n + 1, M => by
      rw [Matrix.det_succ_row_zero]
      simp only [detExpand]
      exact Finset.sum_congr rfl fun j _ => by
        rw [detExpand_eq_det n (M.submatrix Fin.succ j.succAbove)]

theorem npDet_eq_det (A : List (List ℚ)) : npDet A = (toMatN A.length A).det :=
  detExpand_eq_det _ _

theorem isSquareArr_iff (A : List (List ℚ)) :
    isSquareArr A = true ↔ A ≠ [] ∧ ∀ r ∈ A, r.length = A.length := by
  simp [isSquareArr, List.all_eq_true, List.isEmpty_iff]

theorem colsL_eq_length (A : List (List ℚ)) (h : isSquareArr A = true) :
    colsL A = A.length := by
  rcases (isSquareArr_iff A).1 h with ⟨hne, hall⟩
  cases A with
  | nil => exact absurd rfl hne
  | cons a l => exact hall a (List.mem_cons_self a l)

theorem transposeL_length (A : List (List ℚ)) (h : isSquareArr A = true) :
    (transposeL A).length = A.length := by
  simp [transposeL, colsL_eq_length A h]

theorem isSquareArr_transposeL (A : List (List ℚ)) (h : isSquareArr A = true) :
    isSquareArr (transposeL A) = true := by
  rcases (isSquareArr_iff A).1 h with ⟨hne, _⟩
  refine (isSquareArr_iff _).2 ⟨?_, ?_⟩
  · intro hnil
    have : (transposeL A).length = 0 := by rw [hnil]; rfl
    rw [transposeL_length A h] at this
    exact hne (List.length_eq_zero.1 this)
  · intro r hr
    rw [transposeL] at hr
    rcases List.mem_map.1 hr with ⟨j, _, rfl⟩
    rw [List.length_map, transposeL_length A h]

theorem entry_transposeL (A : List (List ℚ)) (h : isSquareArr A = true)
    (i j : ℕ) (hi : i < A.length) :
    entry (transposeL A) i j = entry A j i := by
  have hc : colsL A = A.length := colsL_eq_length A h
  have hrow : (transposeL A).getD i [] = A.map fun r => r.getD i 0 := by
    unfold transposeL
    rw [List.getD_eq_getElem?_getD, List.getElem?_map,
      List.getElem?_range (by rw [hc]; exact hi)]
    rfl
  unfold entry
  rw [hrow]
  by_cases hj : j < A.length
  · rw [List.getD_eq_getElem?_getD (A.map fun r => r.getD i 0) j 0,
      List.getElem?_map, List.getElem?_eq_getElem hj,
      List.getD_eq_getElem?_getD A j [], List.getElem?_eq_getElem hj]
    rfl
  · rw [List.getD_eq_getElem?_getD (A.map fun r => r.getD i 0) j 0,
      List.getElem?_map, List.getElem?_eq_none (by simpa using Nat.le_of_not_lt hj),
      List.getD_eq_getElem?_getD A j [], List.getElem?_eq_none (Nat.le_of_not_lt hj)]
    rfl

theorem toMatN_transposeL (A : List (List ℚ)) (h : isSquareArr A = true) :
    toMatN A.length (transposeL A) = (toMatN A.length A).transpose := by
  apply Matrix.ext
  intro i j
  exact entry_transposeL A h i j i.2

theorem npDet_transposeL (A : List (List ℚ)) (h : isSquareArr A = true) :
    npDet (transposeL A) = npDet A := by
  show detExpand (transposeL A).length (toMatN (transposeL A).length (transposeL A)) = npDet A
  rw [transposeL_length A h, detExpand_eq_det, toMatN_transposeL A h,
    Matrix.det_transpose, npDet_eq_det]

/-! ## Claim theorems -/

/-- C1: for every square matrix `A`, whatever value the condition-number
oracle reports, if `check_singular` is on and the reported condition number
strictly exceeds `1 / machine_epsilon` (`= 2 ^ 52` for double precision),
then `inverse` raises `SingularMatrixError` carrying that condition number
in its `condition_number` field.  The conclusion holds for every `A`,
invertible or not, and does not consult the inversion primitive `npInv`:
no inverse is computed. -/
theorem c1_inverse_singular_check (condFn : List (List ℚ) → ℚ) (A : List (List ℚ))
    (h1 : isSquareArr A = true) (h2 : 1 / eps64 < condFn A) :
    inverse condFn A true =
      .error (.singularMatrix "Matrix is singular or nearly singular" (some (condFn A))) := by
  have h2a : eps64⁻¹ < condFn A := by rwa [one_div] at h2
  simp [inverse, h1, h2a]

theorem c1_inverse_singular_check_witness :
    isSquareArr [[1, 0], [0, 1]] = true ∧ (1 / eps64 < (2 : ℚ) ^ 53) ∧
    inverse (fun _ => (2 : ℚ) ^ 53) [[1, 0], [0, 1]] true =
      .error (.singularMatrix "Matrix is singular or nearly singular" (some ((2 : ℚ) ^ 53))) :=
  ⟨by decide, by decide,
    c1_inverse_singular_check (fun _ => (2 : ℚ) ^ 53) [[1, 0], [0, 1]] (by decide) (by decide)⟩

/-- C2 (counterexample): on the non-square `A = [[1,0,0],[0,1,0]]` with
`b = [1,0]`, `solve_linear_system` does not raise `DimensionMismatchError`;
it raises `SingularMatrixError` (the wrapped backend shape failure),
refuting both the claimed eager dimension validation and the claim that
`SingularMatrixError` is raised only for singular square systems. -/
theorem c2_counterexample :
    isDimErr (solve_linear_system [[1, 0, 0], [0, 1, 0]] [1, 0]) = false
  ∧ isSingErr (solve_linear_system [[1, 0, 0], [0, 1, 0]] [1, 0]) = true := by decide

/-- C2 (amended): `solve_linear_system` performs no validation of its own.
A non-square `A` makes the backend raise `LinAlgError`, which the function
wraps as `SingularMatrixError`; for square `A` a right-hand side of the
wrong length surfaces as the backend `ValueError`, which propagates
unwrapped; a singular square system is wrapped as `SingularMatrixError`. -/
theorem c2_solve_error_taxonomy (A : List (List ℚ)) (b : List ℚ) :
    (isSquareArr A = false →
      solve_linear_system A b =
        .error (.singularMatrix
          "Cannot solve system: Last 2 dimensions of the array must be square" none))
  ∧ (isSquareArr A = true → b.length ≠ A.length →
      solve_linear_system A b =
        .error (.valueError "solve1: Operand 1 has a mismatch in its core dimension 0"))
  ∧ (isSquareArr A = true → b.length = A.length → npDet A = 0 →
      solve_linear_system A b =
        .error (.singularMatrix "Cannot solve system: Singular matrix" none)) := by
  refine ⟨?_, ?_, ?_⟩
  · intro hs
    simp [solve_linear_system, npSolve, hs]
  · intro hs hb
    simp [solve_linear_system, npSolve, hs, hb]
  · intro hs hb hd
    simp [solve_linear_system, npSolve, hs, hb, hd]

theorem c2_solve_error_taxonomy_witness :
    solve_linear_system [[1, 0, 0], [0, 1, 0]] [1, 0] =
      .error (.singularMatrix
        "Cannot solve system: Last 2 dimensions of the array must be square" none)
  ∧ solve_linear_system [[1, 0], [0, 1]] [1, 2, 3] =
      .error (.valueError "solve1: Operand 1 has a mismatch in its core dimension 0")
  ∧ solve_linear_system [[1, 1], [1, 1]] [1, 2] =
      .error (.singularMatrix "Cannot solve system: Singular matrix" none) :=
  ⟨(c2_solve_error_taxonomy _ _).1 (by decide),
   (c2_solve_error_taxonomy _ _).2.1 (by decide) (by decide),
   (c2_solve_error_taxonomy _ _).2.2 (by decide) (by decide) (by decide)⟩

/-- C3 (counterexample): on a ragged input and on an input with a
non-numeric element, `matrix` fails, but with the NumPy `ValueError`, not
with the claimed `InvalidShapeError` (no class of that name exists in
`core/exceptions.py`). -/
theorem c3_counterexample :
    isOkRes (matrix [[Cell.int 1], [Cell.int 2, Cell.int 3]]) = false
  ∧ isInvalidShapeErr (matrix [[Cell.int 1], [Cell.int 2, Cell.int 3]]) = false
  ∧ isOkRes (matrix [[Cell.int 1, Cell.nonNumeric "x"]]) = false
  ∧ isInvalidShapeErr (matrix [[Cell.int 1, Cell.nonNumeric "x"]]) = false := by decide

/-- C3 (amended): `matrix` fails on every input whose rows have unequal
length or which contains a non-numeric element — but with the backend
`ValueError` raised by `np.array(data, dtype=np.float64)`, not with
`InvalidShapeError`; and for every valid input it produces
double-precision storage with every integer entry promoted. -/
theorem c3_matrix_construction (data : List (List Cell)) :
    (isRectangular data = false ∨ allNumeric data = false →
      isValueErr (matrix data) = true ∧ isInvalidShapeErr (matrix data) = false)
  ∧ (isRectangular data = true → allNumeric data = true →
      matrix data = .ok (data.map fun r => r.map fun c => c.toFloat?.getD 0)) := by
  constructor
  · intro h
    rcases h with h | h
    · simp [matrix, npArrayFloat64, h, isValueErr, isInvalidShapeErr]
    · by_cases hr : isRectangular data <;>
        simp [matrix, npArrayFloat64, h, hr, isValueErr, isInvalidShapeErr]
  · intro hr hn
    simp [matrix, npArrayFloat64, hr, hn]

theorem c3_matrix_construction_witness :
    isValueErr (matrix [[Cell.int 1], [Cell.int 2, Cell.int 3]]) = true
  ∧ isInvalidShapeErr (matrix [[Cell.int 1], [Cell.int 2, Cell.int 3]]) = false
  ∧ matrix [[Cell.int 1, Cell.float (3 / 2)]] = .ok [[1, 3 / 2]] := by
  have h1 := (c3_matrix_construction [[Cell.int 1], [Cell.int 2, Cell.int 3]]).1
    (Or.inl (by decide))
  have h2 := (c3_matrix_construction [[Cell.int 1, Cell.float (3 / 2)]]).2
    (by decide) (by decide)
  refine ⟨h1.1, h1.2, ?_⟩
  rw [h2]
  decide

/-- C4: for every square `A` and every condition-number oracle,
`determinant(A, check_numerical=true)` emits its advisory flag exactly when
`A` is larger than `10 × 10` and the reported condition number exceeds
`1e10`; the computed determinant is returned in every case (`determinant`
never hard-fails on conditioning, with either switch value), and for
matrices of size at most `10 × 10` the advisory is never emitted. -/
theorem c4_determinant_advisory (condFn : List (List ℚ) → ℚ) (A : List (List ℚ))
    (ck : Bool) (h : isSquareArr A = true) :
    (detAdvisory (determinant condFn A true) = some true ↔
      10 < A.length ∧ (10 : ℚ) ^ 10 < condFn A)
  ∧ detValue (determinant condFn A ck) = some (npDet A)
  ∧ isOkRes (determinant condFn A ck) = true
  ∧ (A.length ≤ 10 → detAdvisory (determinant condFn A true) = some false) := by
  refine ⟨?_, ?_, ?_, ?_⟩
  · simp [determinant, h, detAdvisory]
  · simp [determinant, h, detValue]
  · simp [determinant, h, isOkRes]
  · intro hle
    simp [determinant, h, detAdvisory, Nat.not_lt.2 hle]

theorem c4_determinant_advisory_witness :
    detValue (determinant (fun _ => (10 : ℚ) ^ 11) [[2, 0, 0], [0, 2, 0], [0, 0, 2]] true) =
      some 8
  ∧ isOkRes (determinant (fun _ => (10 : ℚ) ^ 11) [[2, 0, 0], [0, 2, 0], [0, 0, 2]] true) = true
  ∧ detAdvisory (determinant (fun _ => (10 : ℚ) ^ 11) [[2, 0, 0], [0, 2, 0], [0, 0, 2]] true) =
      some false := by
  have h := c4_determinant_advisory (fun _ => (10 : ℚ) ^ 11)
    [[2, 0, 0], [0, 2, 0], [0, 0, 2]] true (by decide)
  refine ⟨?_, h.2.2.1, h.2.2.2 (by decide)⟩
  rw [h.2.1]
  decide

/-- C5 (counterexample): multiplying a `(2,3)` matrix by a `(4,2)` matrix
raises `DimensionMismatchError`, but its `expected`/`got` diagnostic fields
are both `None` — not the claimed `expected = 3`, `got = 4`; the call site
passes a message string only. -/
theorem c5_counterexample :
    dimFields (multiply [[1, 2, 3], [4, 5, 6]] [[1, 0], [0, 1], [1, 1], [2, 2]]) =
      some (none, none)
  ∧ some ((none : Option ℕ), (none : Option ℕ)) ≠ some (some 3, some 4) := by decide

/-- C5 (amended): for every pair of matrices with `A.cols ≠ B.rows`,
`multiply` raises `DimensionMismatchError` carrying only the formatted
message; the structured `expected`/`got` fields are left unpopulated
(`None`). -/
theorem c5_multiply_mismatch (A B : List (List ℚ)) (h : colsL A ≠ B.length) :
    multiply A B =
      .error (.dimensionMismatch
        ("Cannot multiply matrices with shapes " ++ shapeStr A ++ " and " ++ shapeStr B)
        none none)
  ∧ dimFields (multiply A B) = some (none, none) := by
  constructor <;> simp [multiply, h, dimFields]

theorem c5_multiply_mismatch_witness :
    colsL [[1, 2, 3], [4, 5, 6]] ≠ [[1, 0], [0, 1], [1, 1], [2, 2]].length
  ∧ multiply [[1, 2, 3], [4, 5, 6]] [[1, 0], [0, 1], [1, 1], [2, 2]] =
      .error (.dimensionMismatch
        "Cannot multiply matrices with shapes (2, 3) and (4, 2)" none none)
  ∧ dimFields (multiply [[1, 2, 3], [4, 5, 6]] [[1, 0], [0, 1], [1, 1], [2, 2]]) =
      some (none, none) := by
  have h := c5_multiply_mismatch [[1, 2, 3], [4, 5, 6]] [[1, 0], [0, 1], [1, 1], [2, 2]]
    (by decide)
  refine ⟨by decide, ?_, h.2⟩
  rw [h.1]
  rfl

/-- C6 (counterexample): on the malformed (non-square) input
`[[1,0,0],[0,1,0]]`, `is_positive_definite` does not raise: the backend
`LinAlgError` from the shape assertion is caught by the same handler as a
failed decomposition, and the predicate returns `False`. -/
theorem c6_counterexample :
    is_positive_definite [[1, 0, 0], [0, 1, 0]] = .ok false := by decide

/-- C6 (amended): `is_positive_definite(A)` never raises on any rectangular
numeric input; it returns `True` exactly when `A` is square and the
Cholesky-style pivot recursion on the (lower-triangle-read) symmetric
matrix completes without a non-positive pivot, and it returns `False` both
for square non-positive-definite inputs and for malformed (non-square)
inputs. -/
theorem c6_pd_never_raises (A : List (List ℚ)) :
    isOkRes (is_positive_definite A) = true
  ∧ (is_positive_definite A = .ok true ↔
      isSquareArr A = true ∧ choleskyPivotsOk (symLower A) = true)
  ∧ (isSquareArr A = false → is_positive_definite A = .ok false) := by
  rcases Bool.eq_false_or_eq_true (isSquareArr A) with hs | hs <;>
    rcases Bool.eq_false_or_eq_true (choleskyPivotsOk (symLower A)) with hc | hc <;>
      simp [is_positive_definite, npCholesky, isOkRes, hs, hc]

theorem c6_pd_never_raises_witness :
    isOkRes (is_positive_definite [[2, 0], [0, 3]]) = true
  ∧ is_positive_definite [[2, 0], [0, 3]] = .ok true
  ∧ is_positive_definite [[1, 2, 3], [4, 5, 6]] = .ok false :=
  ⟨(c6_pd_never_raises [[2, 0], [0, 3]]).1,
   (c6_pd_never_raises [[2, 0], [0, 3]]).2.1.mpr ⟨by decide, by decide⟩,
   (c6_pd_never_raises [[1, 2, 3], [4, 5, 6]]).2.2 (by decide)⟩

/-- C7: `eigenvalues` packages the eigendecomposition primitive's outputs
into `EigenResult` unmodified and in order, so the eigenvector columns
correspond index-for-index to the eigenvalues: whenever the primitive's
output satisfies `A · vecs[:,i] ≈ vals[i] · vecs[:,i]` within `tol` for
every `i`, the returned record satisfies the same invariant, and its
`values` are exactly the primitive's (complex) eigenvalues — nothing is
discarded. -/
theorem c7_eigen_passthrough
    (eigPrim : List (List ℚ) → Except PyError (List CQ × List (List CQ)))
    (A : List (List ℚ)) (tol : ℚ) (vals : List CQ) (vecs : List (List CQ))
    (r : EigenResultL)
    (hp : eigPrim A = .ok (vals, vecs))
    (hr : eigenvalues eigPrim A = .ok r)
    (hinv : ∀ i, i < vals.length → eigPairOk tol A vals vecs i = true) :
    r.values = vals ∧ r.vectors = vecs
  ∧ (∀ i, i < r.values.length → resultPairOk tol A r i = true) := by
  have hok : eigenvalues eigPrim A = .ok ⟨vals, vecs⟩ := by
    unfold eigenvalues
    rw [hp]
    rfl
  rw [hok] at hr
  have hre : r = ⟨vals, vecs⟩ := by
    cases hr
    rfl
  subst hre
  exact ⟨rfl, rfl, hinv⟩

theorem c7_eigen_passthrough_witness :
    (⟨[⟨0, 1⟩, ⟨0, -1⟩], [[⟨1, 0⟩, ⟨1, 0⟩], [⟨0, -1⟩, ⟨0, 1⟩]]⟩ : EigenResultL).values =
      [⟨0, 1⟩, ⟨0, -1⟩]
  ∧ resultPairOk 0 [[0, -1], [1, 0]]
      ⟨[⟨0, 1⟩, ⟨0, -1⟩], [[⟨1, 0⟩, ⟨1, 0⟩], [⟨0, -1⟩, ⟨0, 1⟩]]⟩ 0 = true
  ∧ resultPairOk 0 [[0, -1], [1, 0]]
      ⟨[⟨0, 1⟩, ⟨0, -1⟩], [[⟨1, 0⟩, ⟨1, 0⟩], [⟨0, -1⟩, ⟨0, 1⟩]]⟩ 1 = true := by
  have h := c7_eigen_passthrough eigOracle0 [[0, -1], [1, 0]] 0
    [⟨0, 1⟩, ⟨0, -1⟩] [[⟨1, 0⟩, ⟨1, 0⟩], [⟨0, -1⟩, ⟨0, 1⟩]]
    ⟨[⟨0, 1⟩, ⟨0, -1⟩], [[⟨1, 0⟩, ⟨1, 0⟩], [⟨0, -1⟩, ⟨0, 1⟩]]⟩
    rfl rfl (by decide)
  exact ⟨h.1, h.2.2 0 (by decide), h.2.2 1 (by decide)⟩

/-- C8 (counterexample): on the matrix `[[3,0],[0,4]]`, `norm` called with
the default order returns the spectral norm `4` (squared: `16`), while the
Frobenius norm is `5` (squared: `25`): the default matrix semantics is NOT
Frobenius, refuting the claim. -/
theorem c8_counterexample :
    normDefault (NormInput.mat [[3, 0], [0, 4]]) = some 16
  ∧ npNormSq (NormInput.mat [[3, 0], [0, 4]]) NOrder.fro = some 25
  ∧ normDefault (NormInput.mat [[3, 0], [0, 4]]) ≠
      npNormSq (NormInput.mat [[3, 0], [0, 4]]) NOrder.fro := by decide

/-- C8 (amended): `norm` forwards its argument and `ord` straight to
`np.linalg.norm`, with `ord` defaulting to the integer `2`.  For a vector
the default is therefore the Euclidean 2-norm, but for a matrix `ord=2`
selects the spectral norm (largest singular value, shown here on diagonal
matrices), not the Frobenius norm; Frobenius requires the explicit
`ord='fro'`. -/
theorem c8_norm_default (v : List ℚ) (A : List (List ℚ))
    (hd : isDiagonalL A = true) :
    normDefault (NormInput.vec v) = some (vecSumSq v)
  ∧ normDefault (NormInput.mat A) = some (maxDiagSq A)
  ∧ norm (NormInput.mat A) NOrder.fro = some (frobSq A) := by
  refine ⟨rfl, ?_, rfl⟩
  simp [normDefault, norm, npNormSq, normOrderDefault, hd]

theorem c8_norm_default_witness :
    isDiagonalL [[5, 0], [0, 2]] = true
  ∧ normDefault (NormInput.vec [3, 4]) = some 25
  ∧ normDefault (NormInput.mat [[5, 0], [0, 2]]) = some 25
  ∧ norm (NormInput.mat [[5, 0], [0, 2]]) NOrder.fro = some 29 := by
  have h := c8_norm_default [3, 4] [[5, 0], [0, 2]] (by decide)
  refine ⟨by decide, ?_, ?_, ?_⟩
  · rw [h.1]; decide
  · rw [h.2.1]; decide
  · rw [h.2.2]; decide

/-- C9: the per-call switches never change the mathematical result when no
error fires: `determinant` returns the same scalar whatever the value of
`check_numerical` (only the advisory flag can differ), and whenever
`inverse` with `check_singular=true` returns a matrix, `inverse` with
`check_singular=false` returns the same matrix. -/
theorem c9_switches_preserve_result :
    (∀ (condFn : List (List ℚ) → ℚ) (A : List (List ℚ)) (ck1 ck2 : Bool),
      detValue (determinant condFn A ck1) = detValue (determinant condFn A ck2))
  ∧ (∀ (condFn : List (List ℚ) → ℚ) (A M : List (List ℚ)),
      inverse condFn A true = .ok M → inverse condFn A false = .ok M) := by
  constructor
  · intro condFn A ck1 ck2
    rcases Bool.eq_false_or_eq_true (isSquareArr A) with hs | hs <;>
      simp [determinant, detValue, hs]
  · intro condFn A M h
    unfold inverse at h ⊢
    rcases Bool.eq_false_or_eq_true (isSquareArr A) with hs | hs
    · rw [hs] at h ⊢
      rcases Bool.eq_false_or_eq_true (decide (1 / eps64 < condFn A)) with hc | hc
      · rw [hc] at h
        simp at h
      · rw [hc] at h
        simpa using h
    · rw [hs] at h
      simp at h

theorem c9_switches_preserve_result_witness :
    detValue (determinant (fun _ => 1) [[1, 2], [3, 4]] true) =
      detValue (determinant (fun _ => 1) [[1, 2], [3, 4]] false)
  ∧ inverse (fun _ => 1) [[1, 2], [3, 4]] false = .ok [[-2, 1], [3 / 2, -(1 / 2)]] :=
  ⟨c9_switches_preserve_result.1 (fun _ => 1) [[1, 2], [3, 4]] true false,
   c9_switches_preserve_result.2 (fun _ => 1) [[1, 2], [3, 4]] [[-2, 1], [3 / 2, -(1 / 2)]]
     (by decide)⟩

/-- C10: for every square matrix `A` (and any condition-number oracle and
switch value), the scalar returned by `determinant` on `transpose(A)` is
exactly equal to the scalar returned on `A`: in the exact-arithmetic
embedding of the backend determinant the equality is exact, not merely
approximate. -/
theorem c10_det_transpose (condFn : List (List ℚ) → ℚ) (A : List (List ℚ))
    (ck : Bool) (h : isSquareArr A = true) :
    detValue (determinant condFn (transposeL A) ck) =
      detValue (determinant condFn A ck) := by
  simp [determinant, h, isSquareArr_transposeL A h, detValue, npDet_transposeL A h]

theorem c10_det_transpose_witness :
    isSquareArr [[1, 2], [3, 4]] = true
  ∧ detValue (determinant (fun _ => 1) (transposeL [[1, 2], [3, 4]]) true) =
      detValue (determinant (fun _ => 1) [[1, 2], [3, 4]] true)
  ∧ detValue (determinant (fun _ => 1) [[1, 2], [3, 4]] true) = some (-2) :=
  ⟨by decide, c10_det_transpose (fun _ => 1) [[1, 2], [3, 4]] true (by decide), by decide⟩

end Anvaya
